import Mathlib

/-!
Verification development for the chess-platform realtime server
(`src/client/src/socket.js`, server half of the file).

The server is embedded as an event-driven state machine.  Each socket.io
handler of the source becomes a Lean function on `ServerState`; the Node
event loop's run-to-completion processing of one handler at a time becomes
one `step` of the machine.  Machine integers are `Int`/`Nat`; wall-clock
time (`Date.now()`) is the `now` field of the state, advanced by explicit
`tick` events.  JavaScript `Map`s keyed by game id are association lists,
and the source's per-connection `gameTimeouts` maps (declared inside
`io.on('connection', ...)`) are modelled as one association list keyed by
the pair (connection id, game id).  A handler that would raise a
`TypeError` (reading `.id` of `null`) returns `none`.

The wasm move validator (`moveValidator.mjs`) and `chessUtils.js` are not
under `src/`; they are abstracted as an `Oracle` parameter (the spec's
"Rules Oracle" collaborator), while the `isValidMoveWasm` combinator, the
board simulation it performs and every handler are translated directly
from `socket.js`.
-/

namespace Chess

abbrev SocketId := Nat
abbrev UserId := Nat
abbrev GameId := Nat

/-- A board cell: `some c` holds the piece character (as in the source's
`'r'`, `'P'`, ...), `none` is the source's empty string `''`. -/
abbrev Cell := Option Char

/-- The board is the source's 8×8 nested array. -/
abbrev Board := List (List Cell)

inductive Color where
  | white
  | black
deriving DecidableEq, Repr

def Color.other : Color → Color
  | .white => .black
  | .black => .white

/-- One entry of `game.players`: `{ id: socket.id, user }`.  The user is
kept as an opaque optional identifier (`socket.data.user`). -/
structure Player where
  sid : SocketId
  user : Option UserId
deriving DecidableEq, Repr

/-- `game.players`.  Every creation site of the source fills `white`;
`black` is `null` until a second participant arrives. -/
structure Players where
  white : Player
  black : Option Player
deriving DecidableEq, Repr

/-- Terminal reasons, the logical names of the spec's
`{Checkmate, Stalemate, Timeout, OpponentDisconnected}` (the source's
literal strings `'Timeout'`, `'Opponent disconnected.'`, ... are
abstracted to these logical labels, as §6 of the spec abstracts all
message names). -/
inductive Reason where
  | timeout
  | opponentDisconnected
  | checkmate
  | stalemate
deriving DecidableEq, Repr

/-- A terminal status object `{ winner, reason }`. -/
structure Status where
  winner : Option Color
  reason : Reason
deriving DecidableEq, Repr

/-- Modelled from the spec: the Rules Oracle (§2, §6).  The wasm
`isValidMove` reachability check and `chessUtils.js`'s
`isKingInCheck`/`getGameStatus` are repository code that is not under
`src/`; per the spec they are pure functions of the board and side, so
they are abstracted as opaque function parameters.  (`isKingInCheck` and
`getGameStatus` receive a legality probe in the source; the probe is a
closure over the oracle itself, so it is absorbed into the function.) -/
structure Oracle where
  isValidMoveC : Board → Nat × Nat → Nat × Nat → Color → Bool
  isKingInCheck : Board → Color → Bool
  getGameStatus : Board → Color → Option Status

/-- `board[r][c]`, with out-of-range reads giving the empty cell. -/
def cellAt (b : Board) (r c : Nat) : Cell :=
  ((b.getD r []).getD c none)

/-- In-place update `board[r][c] = v` (no-op out of range, as the claims
only exercise in-range coordinates). -/
def setCell (b : Board) (r c : Nat) (v : Cell) : Board :=
  b.set r ((b.getD r []).set c v)

/-- The source's basic relocation, performed identically by the
simulation in `isValidMoveWasm` (`temp[tr][tc] = board[fr][fc];
temp[fr][fc] = ''`) and by the GAME_MOVE handler itself: the destination
takes the origin's piece, the origin becomes empty. -/
def movePiece (b : Board) (fr tg : Nat × Nat) : Board :=
  setCell (setCell b tg.1 tg.2 (cellAt b fr.1 fr.2)) fr.1 fr.2 none

/-- `isValidMoveWasm` (socket.js lines 74–92): wasm reachability, then a
simulated application of the move must not leave the mover's own king in
check. -/
def isValidMoveWasm (O : Oracle) (board : Board) (fr tg : Nat × Nat) (turn : Color) : Bool :=
  let ok := O.isValidMoveC board fr tg turn
  let leavesKingInCheck := O.isKingInCheck (movePiece board fr tg) turn
  ok && !leavesKingInCheck

/-- `initialBoard` (socket.js lines 104–109). -/
def initialBoard : Board :=
  [[some 'r', some 'n', some 'b', some 'q', some 'k', some 'b', some 'n', some 'r'],
   [some 'p', some 'p', some 'p', some 'p', some 'p', some 'p', some 'p', some 'p'],
   [none, none, none, none, none, none, none, none],
   [none, none, none, none, none, none, none, none],
   [none, none, none, none, none, none, none, none],
   [none, none, none, none, none, none, none, none],
   [some 'P', some 'P', some 'P', some 'P', some 'P', some 'P', some 'P', some 'P'],
   [some 'R', some 'N', some 'B', some 'Q', some 'K', some 'B', some 'N', some 'R']]

/-- One session object as stored in the `games` map. -/
structure Game where
  board : Board
  turn : Color
  players : Players
  check : Option Color
  timeControl : Int
  whiteTime : Int
  blackTime : Int
  lastMoveTime : Option Int
deriving DecidableEq, Repr

/-- The error messages the server emits on GAME_ERROR, as logical labels
for the source's literal strings. -/
inductive ErrMsg where
  | authRequired
  | gameNotFound
  | gameFull
  | alreadyJoined
  | notYourTurn
  | invalidMove
deriving DecidableEq, Repr

/-- Messages the server emits (GAME_CREATED, GAME_FINDING, GAME_JOINED,
GAME_STATE, GAME_OVER, GAME_ERROR), with the payload fields the claims
refer to. -/
inductive Msg where
  | gameCreated (gid : GameId) (whiteTime blackTime : Int)
  | gameFinding
  | gameJoined (gid : GameId) (color : Color) (board : Board) (whiteTime blackTime : Int)
  | gameState (board : Board) (turn : Color) (check : Option Color)
      (whiteTime blackTime : Int) (lastMoveTime : Option Int)
  | gameOver (st : Status)
  | gameError (e : ErrMsg)
deriving DecidableEq, Repr

/-- One emission: `socket.emit(...)` targets a single socket,
`io.to(ROOMS.game(gid)).emit(...)` targets the session's room (both
participants). -/
inductive Emit where
  | toSock (sid : SocketId) (m : Msg)
  | toRoom (gid : GameId) (m : Msg)
deriving DecidableEq, Repr

/-- One armed `setTimeout`: its handle (`tid`), the connection whose
closure armed it (whose `gameTimeouts` map holds it), the session and
side it will flag, and the absolute time at which it becomes due
(`now + duration + 1000`, the source's latency buffer). -/
structure TimerRec where
  tid : Nat
  conn : SocketId
  gid : GameId
  color : Color
  fireAt : Int
deriving DecidableEq, Repr

/-- The whole server state.  `tmap` is the union of all per-connection
`gameTimeouts` maps, keyed by (connection, game id); `pending` is the set
of armed-and-not-yet-fired/cancelled `setTimeout`s; `log` is the ordered
list of everything emitted so far; `nextGid` generates fresh session
identifiers (the source's `crypto.randomUUID().slice(0, 8)`, which the
spec requires to be collision-free, is modelled as a fresh counter). -/
structure ServerState where
  games : List (GameId × Game)
  queue : List SocketId
  tmap : List ((SocketId × GameId) × Nat)
  pending : List TimerRec
  log : List Emit
  now : Int
  nextGid : GameId
  nextTid : Nat
deriving DecidableEq, Repr

/-- `games.get(gid)`. -/
def glookup : List (GameId × Game) → GameId → Option Game
  | [], _ => none
  | p :: gs, gid => if p.1 = gid then some p.2 else glookup gs gid

/-- `games.delete(gid)`. -/
def gerase : List (GameId × Game) → GameId → List (GameId × Game)
  | [], _ => []
  | p :: gs, gid => if p.1 = gid then gerase gs gid else p :: gerase gs gid

/-- In-place mutation of the (shared, by-reference) game object: every
entry for `gid` now holds the new value. -/
def gupdate (gs : List (GameId × Game)) (gid : GameId) (g : Game) : List (GameId × Game) :=
  gs.map (fun p => if p.1 = gid then (gid, g) else p)

/-- `gameTimeouts.get(gid)` in connection `c`'s closure. -/
def tlookup : List ((SocketId × GameId) × Nat) → SocketId × GameId → Option Nat
  | [], _ => none
  | p :: tm, k => if p.1 = k then some p.2 else tlookup tm k

/-- `gameTimeouts.delete(gid)` in connection `c`'s closure. -/
def terase : List ((SocketId × GameId) × Nat) → SocketId × GameId →
    List ((SocketId × GameId) × Nat)
  | [], _ => []
  | p :: tm, k => if p.1 = k then terase tm k else p :: terase tm k

/-- Remove the first occurrence of a socket from the queue
(`findIndex` + `splice(index, 1)`). -/
def removeFirst (q : List SocketId) (sock : SocketId) : List SocketId :=
  match q with
  | [] => []
  | x :: xs => if x = sock then xs else x :: removeFirst xs sock

/-- Append one emission to the log. -/
def emit (s : ServerState) (e : Emit) : ServerState :=
  { s with log := s.log ++ [e] }

/-- `handleTimeout(gameId, loserColor)` (lines 187–197), running in
connection `c`'s closure: a no-op if the session was already evicted;
otherwise broadcast GAME_OVER with the opposite side as winner and reason
Timeout, save (external, not modelled), evict the session, and delete the
closure's map entry.  Note the `pending` `setTimeout` handle is *not*
cleared here (the source never calls `clearTimeout` in this path); a
fired timer is removed from `pending` by the firing itself. -/
def handleTimeout (s : ServerState) (c : SocketId) (gid : GameId) (loserColor : Color) :
    ServerState :=
  match glookup s.games gid with
  | none => s
  | some _ =>
    let winner := loserColor.other
    { s with
      log := s.log ++ [.toRoom gid (.gameOver ⟨some winner, .timeout⟩)],
      games := gerase s.games gid,
      tmap := terase s.tmap (c, gid) }

/-- `clearGameTimeout(gameId)` (lines 169–174) in connection `c`'s
closure: if that closure's map has an entry, `clearTimeout` it (remove it
from `pending`) and drop the map entry. -/
def clearGameTimeout (s : ServerState) (c : SocketId) (gid : GameId) : ServerState :=
  match tlookup s.tmap (c, gid) with
  | none => s
  | some tid =>
    { s with
      pending := s.pending.filter (fun r => r.tid != tid),
      tmap := terase s.tmap (c, gid) }

/-- `setGameTimeout(gameId, duration, color)` (lines 176–185) in
connection `c`'s closure: clear that closure's existing timer, then
either run `handleTimeout` at once (`duration <= 0`) or arm a fresh
`setTimeout` due at `now + duration + 1000`. -/
def setGameTimeout (s : ServerState) (c : SocketId) (gid : GameId) (duration : Int)
    (color : Color) : ServerState :=
  let s := clearGameTimeout s c gid
  if duration ≤ 0 then handleTimeout s c gid color
  else
    { s with
      pending := s.pending ++ [⟨s.nextTid, c, gid, color, s.now + duration + 1000⟩],
      tmap := s.tmap ++ [((c, gid), s.nextTid)],
      nextTid := s.nextTid + 1 }

/-- The GAME_CREATE handler (lines 135–164).  `tc` is the parsed time
control: `some m` when `payload.timeControl` was truthy and parsed to the
integer `m`, `none` for the 10-minute default. -/
def gameCreate (users : SocketId → Option UserId) (s : ServerState) (sock : SocketId)
    (tc : Option Int) : ServerState :=
  match users sock with
  | none => emit s (.toSock sock (.gameError .authRequired))
  | some u =>
    let gid := s.nextGid
    let timeMinutes := tc.getD 10
    let timeMs := timeMinutes * 60 * 1000
    let g : Game :=
      { board := initialBoard, turn := .white,
        players := ⟨⟨sock, some u⟩, none⟩, check := none,
        timeControl := timeMs, whiteTime := timeMs, blackTime := timeMs,
        lastMoveTime := none }
    let s := { s with games := s.games ++ [(gid, g)], nextGid := s.nextGid + 1 }
    emit s (.toSock sock (.gameCreated gid timeMs timeMs))

/-- The coin-flip side assignment of queue pairing (lines 220–222). -/
def pairedPlayers (users : SocketId → Option UserId) (coin : Bool) (p1 p2 : SocketId) :
    Players :=
  if coin then ⟨⟨p1, users p1⟩, some ⟨p2, users p2⟩⟩
  else ⟨⟨p2, users p2⟩, some ⟨p1, users p1⟩⟩

/-- The color reported to a paired socket (lines 241–242):
`players.white.id === socket.id ? 'white' : 'black'`. -/
def pairColor (players : Players) (p : SocketId) : Color :=
  if players.white.sid = p then .white else .black

/-- The pairing block of the GAME_FIND handler (lines 213–256), entered
with the two shifted entries `p1`, `p2` and the remaining queue: create a
session with sides assigned by the coin flip (`Math.random() < 0.5`),
emit GAME_JOINED to each, broadcast GAME_STATE, stamp `lastMoveTime` and
arm the timer for white — in the closure of the socket that triggered the
pairing. -/
def pairUp (users : SocketId → Option UserId) (s : ServerState) (sock : SocketId)
    (coin : Bool) (p1 p2 : SocketId) (rest : List SocketId) : ServerState :=
  let s := { s with queue := rest }
  let gid := s.nextGid
  let players : Players := pairedPlayers users coin p1 p2
  let tenMin : Int := 10 * 60 * 1000
  let g : Game :=
    { board := initialBoard, turn := .white, players := players, check := none,
      timeControl := tenMin, whiteTime := tenMin, blackTime := tenMin,
      lastMoveTime := none }
  let s := { s with games := s.games ++ [(gid, g)], nextGid := s.nextGid + 1 }
  let s := emit s (.toSock p1
    (.gameJoined gid (pairColor players p1) g.board g.whiteTime g.blackTime))
  let s := emit s (.toSock p2
    (.gameJoined gid (pairColor players p2) g.board g.whiteTime g.blackTime))
  let s := emit s (.toRoom gid
    (.gameState g.board .white none g.whiteTime g.blackTime g.lastMoveTime))
  let g2 := { g with lastMoveTime := some s.now }
  let s := { s with games := gupdate s.games gid g2 }
  setGameTimeout s sock gid g2.whiteTime .white

/-- The pairing check of GAME_FIND (line 213, `matchmakingQueue.length >= 2`
followed by two `shift()`s  — the queue can only reach length two through
the enqueue just performed, so matching the two oldest entries is the
same test). -/
def gameFindQueue (users : SocketId → Option UserId) (s : ServerState) (sock : SocketId)
    (coin : Bool) : ServerState :=
  match s.queue with
  | p1 :: p2 :: rest => pairUp users s sock coin p1 p2 rest
  | _ => s

/-- The GAME_FIND handler (lines 200–257): enqueue, emit GAME_FINDING,
then pair if the queue holds two entries.  (The nested GAME_FIND_CANCEL
listener registration is out of the claims' scope and not modelled.) -/
def gameFind (users : SocketId → Option UserId) (s : ServerState) (sock : SocketId)
    (coin : Bool) : ServerState :=
  match users sock with
  | none => emit s (.toSock sock (.gameError .authRequired))
  | some _ =>
    gameFindQueue users
      (emit { s with queue := s.queue ++ [sock] } (.toSock sock .gameFinding)) sock coin

/-- The GAME_JOIN handler (lines 259–287): guards (auth, NotFound, Full,
AlreadyJoined), fill black, emit GAME_JOINED to the joiner, broadcast
GAME_STATE, stamp `lastMoveTime` and arm the timer — for white, with
white's remaining time. -/
def gameJoin (users : SocketId → Option UserId) (s : ServerState) (sock : SocketId)
    (gid : GameId) : ServerState :=
  match users sock with
  | none => emit s (.toSock sock (.gameError .authRequired))
  | some u =>
    match glookup s.games gid with
    | none => emit s (.toSock sock (.gameError .gameNotFound))
    | some g =>
      if g.players.black.isSome then emit s (.toSock sock (.gameError .gameFull))
      else if g.players.white.sid = sock then
        emit s (.toSock sock (.gameError .alreadyJoined))
      else
        let g1 := { g with players := { g.players with black := some ⟨sock, some u⟩ } }
        let s := { s with games := gupdate s.games gid g1 }
        let s := emit s (.toSock sock
          (.gameJoined gid .black g1.board g1.whiteTime g1.blackTime))
        let s := emit s (.toRoom gid
          (.gameState g1.board g1.turn g1.check g1.whiteTime g1.blackTime g1.lastMoveTime))
        let g2 := { g1 with lastMoveTime := some s.now }
        let s := { s with games := gupdate s.games gid g2 }
        setGameTimeout s sock gid g2.whiteTime .white

/-- The side-to-move's socket id (line 294):
`turn === 'white' ? players.white.id : players.black.id`.  Reading `.id`
when `players.black` is `null` is the source's TypeError; here it is the
`none` result. -/
def turnSid (g : Game) : Option SocketId :=
  match g.turn with
  | .white => some g.players.white.sid
  | .black => g.players.black.map (·.sid)

/-- The timer-logic block of GAME_MOVE (lines 299–307): if
`game.lastMoveTime` is truthy (non-null and — JavaScript truthiness —
nonzero), charge `Date.now() - lastMoveTime` to the side-to-move's
budget. -/
def chargeElapsed (g : Game) (now : Int) : Game :=
  match g.lastMoveTime with
  | none => g
  | some t =>
    if t = 0 then g
    else
      let elapsed := now - t
      match g.turn with
      | .white => { g with whiteTime := g.whiteTime - elapsed }
      | .black => { g with blackTime := g.blackTime - elapsed }

/-- The timeout-discovered-on-arrival block of GAME_MOVE (lines 310–318):
clear this closure's timer, broadcast GAME_OVER naming as winner the
opponent of whichever side is at or below zero (white checked first),
save (external) and evict. -/
def moveTimeoutArrival (s : ServerState) (sock : SocketId) (gid : GameId) (g1 : Game) :
    ServerState :=
  let s := clearGameTimeout s sock gid
  let s := emit s (.toRoom gid (.gameOver
    ⟨some (if g1.whiteTime ≤ 0 then Color.black else Color.white), .timeout⟩))
  { s with games := gerase s.games gid }

/-- The terminal check of GAME_MOVE (lines 343–348): if `getGameStatus`
reports a result, broadcast it, save (external) and evict. -/
def moveFinishStatus (O : Oracle) (s : ServerState) (gid : GameId) (g4 : Game) :
    ServerState :=
  match O.getGameStatus g4.board g4.turn with
  | some st =>
    { emit s (.toRoom gid (.gameOver st)) with
      games := gerase (emit s (.toRoom gid (.gameOver st))).games gid }
  | none => s

/-- The main mutation path of GAME_MOVE (lines 319–348), entered with the
charged game value `g1` when no timeout was discovered: stamp
`lastMoveTime`, rearm the timer for the next side (the `turn` variable is
still the old turn at line 323), apply the move, flip the turn, recompute
the check flag, broadcast GAME_STATE and run the terminal check. -/
def moveContinue (O : Oracle) (s : ServerState) (sock : SocketId) (gid : GameId)
    (fr tg : Nat × Nat) (g1 : Game) : ServerState :=
  let g2 := { g1 with lastMoveTime := some s.now }
  let nextTime := match g2.turn.other with
    | Color.white => g2.whiteTime
    | Color.black => g2.blackTime
  let s := setGameTimeout { s with games := gupdate s.games gid g2 }
    sock gid nextTime g2.turn.other
  let g3 := { g2 with board := movePiece g2.board fr tg, turn := g2.turn.other }
  let g4 := { g3 with
    check := if O.isKingInCheck g3.board g3.turn then some g3.turn else none }
  let s := emit { s with games := gupdate s.games gid g4 } (.toRoom gid
    (.gameState g4.board g4.turn g4.check g4.whiteTime g4.blackTime g4.lastMoveTime))
  moveFinishStatus O s gid g4

/-- The timer-logic dispatch of GAME_MOVE (lines 299–318): after charging
the elapsed time (the in-place mutation of the shared game object is
mirrored into the store before this test), either a timeout is discovered
on arrival or the move proceeds. -/
def moveAfterCharge (O : Oracle) (s : ServerState) (sock : SocketId) (gid : GameId)
    (fr tg : Nat × Nat) (g1 : Game) : ServerState :=
  if g1.whiteTime ≤ 0 ∨ g1.blackTime ≤ 0 then moveTimeoutArrival s sock gid g1
  else moveContinue O s sock gid fr tg g1

/-- The GAME_MOVE handler (lines 289–352).  Returns `none` when the
source would raise a TypeError (side-to-move's participant absent); the
silent `if (!game) return` is `some s`.  The source mutates the shared
game object in place; every mutation is mirrored into the map entry with
`gupdate` at the point it happens. -/
def gameMove (O : Oracle) (s : ServerState) (sock : SocketId) (gid : GameId)
    (fr tg : Nat × Nat) : Option ServerState :=
  match glookup s.games gid with
  | none => some s
  | some g =>
    match turnSid g with
    | none => none
    | some pid =>
      if sock ≠ pid then
        some (emit s (.toSock sock (.gameError .notYourTurn)))
      else if isValidMoveWasm O g.board fr tg g.turn then
        some (moveAfterCharge O
          { s with games := gupdate s.games gid (chargeElapsed g s.now) }
          sock gid fr tg (chargeElapsed g s.now))
      else
        some (emit s (.toSock sock (.gameError .invalidMove)))

/-- First session in store-iteration order in which the socket is a
participant (the disconnect scan, lines 361–364, which `break`s at the
first match). -/
def isParticipant (g : Game) (sock : SocketId) : Bool :=
  g.players.white.sid == sock ||
  (match g.players.black with
   | some b => b.sid == sock
   | none => false)

def findGameOf : List (GameId × Game) → SocketId → Option (GameId × Game)
  | [], _ => none
  | p :: gs, sock => if isParticipant p.2 sock then some p else findGameOf gs sock

/-- The disconnect handler (lines 354–374): remove the socket from the
matchmaking queue if present, then finalize the first session it
participates in (stop that timer in this closure's map, broadcast
GAME_OVER with the other side as winner, evict). -/
def disconnectScan (s : ServerState) (sock : SocketId) : ServerState :=
  match findGameOf s.games sock with
  | none => s
  | some (gid, g) =>
    let s := clearGameTimeout s sock gid
    let winner : Color := if g.players.white.sid = sock then .black else .white
    let s := emit s (.toRoom gid (.gameOver ⟨some winner, .opponentDisconnected⟩))
    { s with games := gerase s.games gid }

def disconnect (s : ServerState) (sock : SocketId) : ServerState :=
  disconnectScan { s with queue := removeFirst s.queue sock } sock

/-- A due `setTimeout` fires: the handle is consumed (a `setTimeout` runs
at most once) and the callback `handleTimeout(gameId, color)` runs in the
arming connection's closure.  A handle removed from `pending` by
`clearTimeout` can never fire. -/
def timerFire (s : ServerState) (tid : Nat) : ServerState :=
  match s.pending.find? (fun r => r.tid == tid) with
  | none => s
  | some r =>
    if r.fireAt ≤ s.now then
      handleTimeout { s with pending := s.pending.filter (fun r2 => r2.tid != tid) }
        r.conn r.gid r.color
    else s

/-- Wall-clock advance between handler activations. -/
def tickClock (s : ServerState) (dt : Nat) : ServerState :=
  { s with now := s.now + dt }

/-- The events the server reacts to. -/
inductive Event where
  | create (sock : SocketId) (tc : Option Int)
  | findMatch (sock : SocketId) (coin : Bool)
  | join (sock : SocketId) (gid : GameId)
  | move (sock : SocketId) (gid : GameId) (fr tg : Nat × Nat)
  | disco (sock : SocketId)
  | fire (tid : Nat)
  | tick (dt : Nat)

/-- One run-to-completion handler activation.  `none` is a handler
crash. -/
def step (users : SocketId → Option UserId) (O : Oracle) (s : ServerState) :
    Event → Option ServerState
  | .create sock tc => some (gameCreate users s sock tc)
  | .findMatch sock coin => some (gameFind users s sock coin)
  | .join sock gid => some (gameJoin users s sock gid)
  | .move sock gid fr tg => gameMove O s sock gid fr tg
  | .disco sock => some (disconnect s sock)
  | .fire tid => some (timerFire s tid)
  | .tick dt => some (tickClock s dt)

/-- Process a sequence of events; a crash freezes the state (no further
handler runs, nothing more is emitted). -/
def run (users : SocketId → Option UserId) (O : Oracle) :
    ServerState → List Event → ServerState
  | s, [] => s
  | s, e :: es =>
    match step users O s e with
    | some s' => run users O s' es
    | none => s

/-- The freshly started server: empty registries.  The clock starts at 1:
`Date.now()` (epoch milliseconds) is never zero. -/
def initState : ServerState :=
  { games := [], queue := [], tmap := [], pending := [], log := [],
    now := 1, nextGid := 0, nextTid := 0 }

/-- An environment in which every socket is authenticated. -/
def allUsers : SocketId → Option UserId := fun sid => some sid

/-- An oracle that accepts every move and never reports check or a
terminal position (sufficient for the concrete traces below). -/
def permissiveOracle : Oracle :=
  { isValidMoveC := fun _ _ _ _ => true,
    isKingInCheck := fun _ _ => false,
    getGameStatus := fun _ _ => none }

/-! ## Association-list lemmas -/

theorem glookup_gerase_self (gs : List (GameId × Game)) (gid : GameId) :
    glookup (gerase gs gid) gid = none := by
  induction gs with
  | nil => rfl
  | cons p gs ih =>
    by_cases h : p.1 = gid <;> simp [gerase, glookup, h, ih]

theorem glookup_gerase_none (gs : List (GameId × Game)) (gid k : GameId)
    (h : glookup gs k = none) : glookup (gerase gs gid) k = none := by
  induction gs with
  | nil => rfl
  | cons p gs ih =>
    by_cases hp : p.1 = gid <;> by_cases hk : p.1 = k <;>
      simp_all [gerase, glookup]

theorem glookup_gerase_isSome (gs : List (GameId × Game)) (gid k : GameId)
    (h : (glookup (gerase gs gid) k).isSome) : (glookup gs k).isSome := by
  cases hk : glookup gs k with
  | some g => simp
  | none => rw [glookup_gerase_none gs gid k hk] at h; simp at h

theorem glookup_gupdate_none_iff (gs : List (GameId × Game)) (gid k : GameId) (g : Game) :
    glookup (gupdate gs gid g) k = none ↔ glookup gs k = none := by
  induction gs with
  | nil => simp [gupdate, glookup]
  | cons p gs ih =>
    by_cases hp : p.1 = gid <;> by_cases hk : p.1 = k <;>
      simp_all [gupdate, glookup]

theorem glookup_gupdate_isSome (gs : List (GameId × Game)) (gid k : GameId) (g : Game)
    (h : (glookup (gupdate gs gid g) k).isSome) : (glookup gs k).isSome := by
  cases hk : glookup gs k with
  | some g' => simp
  | none =>
    rw [← glookup_gupdate_none_iff gs gid k g] at hk
    rw [hk] at h; simp at h

theorem glookup_gupdate_self (gs : List (GameId × Game)) (gid : GameId) (g v : Game)
    (h : glookup gs gid = some v) : glookup (gupdate gs gid g) gid = some g := by
  induction gs with
  | nil => simp [glookup] at h
  | cons p gs ih =>
    by_cases hp : p.1 = gid <;> simp_all [gupdate, glookup]

theorem glookup_gupdate_ne (gs : List (GameId × Game)) (gid k : GameId) (g : Game)
    (h : k ≠ gid) : glookup (gupdate gs gid g) k = glookup gs k := by
  induction gs with
  | nil => rfl
  | cons p gs ih =>
    by_cases hp : p.1 = gid <;> by_cases hk : p.1 = k <;>
      simp_all [gupdate, glookup]

theorem glookup_append_self (gs : List (GameId × Game)) (gid : GameId) (g : Game)
    (h : glookup gs gid = none) : glookup (gs ++ [(gid, g)]) gid = some g := by
  induction gs with
  | nil => simp [glookup]
  | cons p gs ih =>
    by_cases hp : p.1 = gid <;> simp_all [glookup]

theorem glookup_append_ne (gs : List (GameId × Game)) (gid k : GameId) (g : Game)
    (h : k ≠ gid) : glookup (gs ++ [(gid, g)]) k = glookup gs k := by
  induction gs with
  | nil => simp [glookup, Ne.symm h]
  | cons p gs ih =>
    by_cases hp : p.1 = k <;> simp_all [glookup]

theorem gupdate_append_fresh (gs : List (GameId × Game)) (gid : GameId) (a b : Game)
    (h : glookup gs gid = none) :
    gupdate (gs ++ [(gid, a)]) gid b = gs ++ [(gid, b)] := by
  induction gs with
  | nil => simp [gupdate]
  | cons p gs ih =>
    by_cases hp : p.1 = gid <;> simp_all [gupdate, glookup]

theorem gerase_gupdate (gs : List (GameId × Game)) (gid : GameId) (g : Game) :
    gerase (gupdate gs gid g) gid = gerase gs gid := by
  induction gs with
  | nil => rfl
  | cons p gs ih =>
    by_cases hp : p.1 = gid <;> simp_all [gupdate, gerase]

theorem findGameOf_mem (gs : List (GameId × Game)) (sock : SocketId) (gid : GameId) (g : Game)
    (h : findGameOf gs sock = some (gid, g)) :
    (glookup gs gid).isSome ∧ isParticipant g sock = true := by
  induction gs with
  | nil => simp [findGameOf] at h
  | cons p gs ih =>
    by_cases hp : isParticipant p.2 sock
    · simp [findGameOf, hp] at h
      subst h
      exact ⟨by simp [glookup], hp⟩
    · simp [findGameOf, hp] at h
      rcases ih h with ⟨h1, h2⟩
      refine ⟨?_, h2⟩
      by_cases hk : p.1 = gid <;> simp [glookup, hk, h1]

theorem tlookup_terase_self (tm : List ((SocketId × GameId) × Nat)) (k : SocketId × GameId) :
    tlookup (terase tm k) k = none := by
  induction tm with
  | nil => rfl
  | cons p tm ih =>
    by_cases h : p.1 = k <;> simp [terase, tlookup, h, ih]

theorem tlookup_clearGameTimeout (s : ServerState) (c : SocketId) (gid : GameId) :
    tlookup (clearGameTimeout s c gid).tmap (c, gid) = none := by
  unfold clearGameTimeout
  cases h : tlookup s.tmap (c, gid) with
  | none => simpa using h
  | some tid => simpa using tlookup_terase_self s.tmap (c, gid)

/-! ## Counting GAME_OVER emissions -/

/-- Is this emission the terminal GAME_OVER broadcast of session `gid`? -/
def isGameOverFor (gid : GameId) : Emit → Bool
  | .toRoom g (.gameOver _) => g == gid
  | _ => false

/-- How many terminal GAME_OVER events for `gid` the log holds. -/
def gameOverCount (log : List Emit) (gid : GameId) : Nat :=
  (log.filter (isGameOverFor gid)).length

theorem gameOverCount_append (l l' : List Emit) (gid : GameId) :
    gameOverCount (l ++ l') gid = gameOverCount l gid + gameOverCount l' gid := by
  simp [gameOverCount, List.filter_append]

theorem gameOverCount_gameOver_self (gid : GameId) (st : Status) :
    gameOverCount [.toRoom gid (.gameOver st)] gid = 1 := by
  simp [gameOverCount, isGameOverFor]

theorem gameOverCount_gameOver_ne (gid k : GameId) (st : Status) (h : k ≠ gid) :
    gameOverCount [.toRoom gid (.gameOver st)] k = 0 := by
  have hb : (gid == k) = false := beq_eq_false_iff_ne.mpr (Ne.symm h)
  simp [gameOverCount, isGameOverFor, List.filter, hb]

/-! ## Projections of the scheduler primitives -/

@[simp] theorem clearGameTimeout_log (s : ServerState) (c : SocketId) (gid : GameId) :
    (clearGameTimeout s c gid).log = s.log := by
  unfold clearGameTimeout; cases tlookup s.tmap (c, gid) <;> rfl

@[simp] theorem clearGameTimeout_games (s : ServerState) (c : SocketId) (gid : GameId) :
    (clearGameTimeout s c gid).games = s.games := by
  unfold clearGameTimeout; cases tlookup s.tmap (c, gid) <;> rfl

@[simp] theorem clearGameTimeout_queue (s : ServerState) (c : SocketId) (gid : GameId) :
    (clearGameTimeout s c gid).queue = s.queue := by
  unfold clearGameTimeout; cases tlookup s.tmap (c, gid) <;> rfl

@[simp] theorem clearGameTimeout_now (s : ServerState) (c : SocketId) (gid : GameId) :
    (clearGameTimeout s c gid).now = s.now := by
  unfold clearGameTimeout; cases tlookup s.tmap (c, gid) <;> rfl

@[simp] theorem clearGameTimeout_nextGid (s : ServerState) (c : SocketId) (gid : GameId) :
    (clearGameTimeout s c gid).nextGid = s.nextGid := by
  unfold clearGameTimeout; cases tlookup s.tmap (c, gid) <;> rfl

@[simp] theorem clearGameTimeout_nextTid (s : ServerState) (c : SocketId) (gid : GameId) :
    (clearGameTimeout s c gid).nextTid = s.nextTid := by
  unfold clearGameTimeout; cases tlookup s.tmap (c, gid) <;> rfl

/-- With a positive duration, `setGameTimeout` only rearms: it clears the
closure's slot and appends one fresh timer. -/
theorem setGameTimeout_of_pos (s : ServerState) (c : SocketId) (gid : GameId)
    (dur : Int) (col : Color) (hd : ¬ dur ≤ 0) :
    setGameTimeout s c gid dur col =
      { clearGameTimeout s c gid with
        pending := (clearGameTimeout s c gid).pending ++
          [⟨s.nextTid, c, gid, col, s.now + dur + 1000⟩],
        tmap := (clearGameTimeout s c gid).tmap ++ [((c, gid), s.nextTid)],
        nextTid := s.nextTid + 1 } := by
  unfold setGameTimeout
  simp [hd]

/-! ## The at-most-one-GAME_OVER invariant -/

/-- The C2 invariant: every session has at most one terminal broadcast;
a session whose terminal broadcast is out is gone from the store and its
identifier is stale (below the generator), so it can never be stored
again; and every stored identifier is below the generator. -/
def Inv (s : ServerState) : Prop :=
  (∀ gid, gameOverCount s.log gid ≤ 1) ∧
  (∀ gid, gameOverCount s.log gid = 1 → glookup s.games gid = none) ∧
  (∀ gid, gameOverCount s.log gid = 1 → gid < s.nextGid) ∧
  (∀ gid, glookup s.games gid ≠ none → gid < s.nextGid)

/-- `Inv` reads only the log, the store and the id generator. -/
theorem inv_of_eq (t : ServerState) (h : Inv t) {s' : ServerState} (hl : s'.log = t.log)
    (hg : s'.games = t.games) (hn : s'.nextGid = t.nextGid) : Inv s' := by
  unfold Inv at h ⊢
  rw [hl, hg, hn]
  exact h

/-- Appending a non-GAME_OVER emission preserves the invariant. -/
theorem inv_emit_other (t : ServerState) (h : Inv t) (e : Emit)
    (he : ∀ gid, isGameOverFor gid e = false) : Inv (emit t e) := by
  obtain ⟨h1, h2, h3, h4⟩ := h
  have hc : ∀ gid, gameOverCount (t.log ++ [e]) gid = gameOverCount t.log gid := by
    intro gid
    rw [gameOverCount_append]
    simp [gameOverCount, List.filter, he gid]
  exact ⟨fun gid => by rw [emit, hc]; exact h1 gid,
         fun gid hg => h2 gid (by rw [emit] at hg; rwa [hc] at hg),
         fun gid hg => h3 gid (by rw [emit] at hg; rwa [hc] at hg),
         h4⟩

/-- Emitting the terminal GAME_OVER of a still-stored session and
evicting it within the same handler activation preserves the
invariant. -/
theorem inv_finalize (t : ServerState) (h : Inv t) {s' : ServerState} (gid : GameId)
    (st : Status)
    (hl : s'.log = t.log ++ [.toRoom gid (.gameOver st)])
    (hg : s'.games = gerase t.games gid)
    (hn : s'.nextGid = t.nextGid)
    (hsome : glookup t.games gid ≠ none) : Inv s' := by
  obtain ⟨h1, h2, h3, h4⟩ := h
  have hzero : gameOverCount t.log gid = 0 := by
    have hle := h1 gid
    rcases Nat.eq_or_lt_of_le hle with heq | hlt
    · exact absurd (h2 gid heq) hsome
    · omega
  refine ⟨?_, ?_, ?_, ?_⟩
  · intro k
    rw [hl, gameOverCount_append]
    by_cases hk : k = gid
    · subst hk
      rw [hzero, gameOverCount_gameOver_self]
    · rw [gameOverCount_gameOver_ne gid k st hk]
      have := h1 k
      omega
  · intro k hk
    rw [hg]
    by_cases hkg : k = gid
    · subst hkg
      exact glookup_gerase_self t.games _
    · rw [hl, gameOverCount_append, gameOverCount_gameOver_ne gid k st hkg,
        Nat.add_zero] at hk
      exact glookup_gerase_none t.games gid k (h2 k hk)
  · intro k hk
    rw [hn]
    by_cases hkg : k = gid
    · subst hkg
      exact h4 _ hsome
    · rw [hl, gameOverCount_append, gameOverCount_gameOver_ne gid k st hkg,
        Nat.add_zero] at hk
      exact h3 k hk
  · intro k hk
    rw [hn]
    rw [hg] at hk
    exact h4 k (fun hnone => hk (glookup_gerase_none t.games gid k hnone))

/-- `handleTimeout` preserves the invariant: it either finds the session
evicted and does nothing, or finalizes it exactly once. -/
theorem inv_handleTimeout (s : ServerState) (c : SocketId) (gid : GameId) (col : Color)
    (h : Inv s) : Inv (handleTimeout s c gid col) := by
  unfold handleTimeout
  cases hg : glookup s.games gid with
  | none => exact h
  | some g => exact inv_finalize s h gid _ rfl rfl rfl (by rw [hg]; simp)

theorem inv_clearGameTimeout (s : ServerState) (c : SocketId) (gid : GameId)
    (h : Inv s) : Inv (clearGameTimeout s c gid) := by
  exact inv_of_eq s h (clearGameTimeout_log s c gid) (clearGameTimeout_games s c gid)
    (clearGameTimeout_nextGid s c gid)

theorem inv_setGameTimeout (s : ServerState) (c : SocketId) (gid : GameId)
    (dur : Int) (col : Color) (h : Inv s) : Inv (setGameTimeout s c gid dur col) := by
  unfold setGameTimeout
  by_cases hd : dur ≤ 0
  · simp only [hd, if_true]
    exact inv_handleTimeout _ c gid col (inv_clearGameTimeout s c gid h)
  · simp only [hd, if_false]
    exact inv_of_eq _ (inv_clearGameTimeout s c gid h) rfl rfl rfl

/-! ## Per-handler invariant preservation -/

@[simp] theorem chargeElapsed_turn (g : Game) (now : Int) :
    (chargeElapsed g now).turn = g.turn := by
  unfold chargeElapsed
  cases g.lastMoveTime with
  | none => rfl
  | some t =>
    by_cases ht : t = 0
    · simp [ht]
    · cases g.turn <;> simp [ht]

@[simp] theorem chargeElapsed_players (g : Game) (now : Int) :
    (chargeElapsed g now).players = g.players := by
  unfold chargeElapsed
  cases g.lastMoveTime with
  | none => rfl
  | some t =>
    by_cases ht : t = 0
    · simp [ht]
    · cases g.turn <;> simp [ht]

@[simp] theorem chargeElapsed_board (g : Game) (now : Int) :
    (chargeElapsed g now).board = g.board := by
  unfold chargeElapsed
  cases g.lastMoveTime with
  | none => rfl
  | some t =>
    by_cases ht : t = 0
    · simp [ht]
    · cases g.turn <;> simp [ht]

/-- Inserting a session under the fresh generator id and bumping the
generator preserves the invariant. -/
theorem inv_insert_fresh (t : ServerState) (h : Inv t) {s' : ServerState} (g : Game)
    (hl : s'.log = t.log) (hg : s'.games = t.games ++ [(t.nextGid, g)])
    (hn : s'.nextGid = t.nextGid + 1) : Inv s' := by
  obtain ⟨h1, h2, h3, h4⟩ := h
  refine ⟨fun k => by rw [hl]; exact h1 k, ?_, ?_, ?_⟩
  · intro k hk
    rw [hl] at hk
    rw [hg]
    have hkn : k ≠ t.nextGid := by
      intro he
      exact absurd (he ▸ h3 k hk) (lt_irrefl _)
    rw [glookup_append_ne t.games t.nextGid k g hkn]
    exact h2 k hk
  · intro k hk
    rw [hl] at hk
    rw [hn]
    exact Nat.lt_succ_of_lt (h3 k hk)
  · intro k hk
    rw [hg] at hk
    rw [hn]
    by_cases hkn : k = t.nextGid
    · rw [hkn]
      exact Nat.lt_succ_self _
    · rw [glookup_append_ne t.games t.nextGid k g hkn] at hk
      exact Nat.lt_succ_of_lt (h4 k hk)

/-- Updating a stored session in place preserves the invariant. -/
theorem inv_gupdate (t : ServerState) (h : Inv t) {s' : ServerState} (gid : GameId) (g : Game)
    (hl : s'.log = t.log) (hg : s'.games = gupdate t.games gid g)
    (hn : s'.nextGid = t.nextGid) : Inv s' := by
  obtain ⟨h1, h2, h3, h4⟩ := h
  refine ⟨fun k => by rw [hl]; exact h1 k, ?_, ?_, ?_⟩
  · intro k hk
    rw [hl] at hk
    rw [hg, glookup_gupdate_none_iff]
    exact h2 k hk
  · intro k hk
    rw [hl] at hk
    rw [hn]
    exact h3 k hk
  · intro k hk
    rw [hg] at hk
    rw [hn]
    refine h4 k (fun hnone => hk ?_)
    rw [glookup_gupdate_none_iff]
    exact hnone

theorem inv_gameCreate (users : SocketId → Option UserId) (s : ServerState)
    (sock : SocketId) (tc : Option Int) (h : Inv s) : Inv (gameCreate users s sock tc) := by
  unfold gameCreate
  cases users sock with
  | none => exact inv_emit_other s h _ (fun k => rfl)
  | some u =>
    apply inv_emit_other
    · exact inv_insert_fresh s h _ rfl rfl rfl
    · exact fun k => rfl

theorem inv_tickClock (s : ServerState) (dt : Nat) (h : Inv s) : Inv (tickClock s dt) :=
  inv_of_eq s h rfl rfl rfl

theorem inv_set_queue (t : ServerState) (h : Inv t) (q : List SocketId) :
    Inv { t with queue := q } :=
  inv_of_eq t h rfl rfl rfl

theorem inv_set_pending (t : ServerState) (h : Inv t) (p : List TimerRec) :
    Inv { t with pending := p } :=
  inv_of_eq t h rfl rfl rfl

theorem inv_gupdate_state (t : ServerState) (h : Inv t) (gid : GameId) (g : Game) :
    Inv { t with games := gupdate t.games gid g } :=
  inv_gupdate t h gid g rfl rfl rfl

theorem inv_insert_state (t : ServerState) (h : Inv t) (g : Game) :
    Inv { t with games := t.games ++ [(t.nextGid, g)], nextGid := t.nextGid + 1 } :=
  inv_insert_fresh t h g rfl rfl rfl

theorem inv_finalize_state (t : ServerState) (h : Inv t) (gid : GameId) (st : Status)
    (hsome : glookup t.games gid ≠ none) :
    Inv { emit t (.toRoom gid (.gameOver st)) with
          games := gerase (emit t (.toRoom gid (.gameOver st))).games gid } :=
  inv_finalize t h gid st rfl rfl rfl hsome

theorem inv_pairUp (users : SocketId → Option UserId) (s : ServerState) (sock : SocketId)
    (coin : Bool) (p1 p2 : SocketId) (rest : List SocketId) (h : Inv s) :
    Inv (pairUp users s sock coin p1 p2 rest) := by
  unfold pairUp
  apply inv_setGameTimeout
  apply inv_gupdate_state
  apply inv_emit_other
  · apply inv_emit_other
    · apply inv_emit_other
      · apply inv_insert_state
        exact inv_set_queue s h _
      · exact fun k => rfl
    · exact fun k => rfl
  · exact fun k => rfl

theorem inv_gameFindQueue (users : SocketId → Option UserId) (s : ServerState)
    (sock : SocketId) (coin : Bool) (h : Inv s) : Inv (gameFindQueue users s sock coin) := by
  unfold gameFindQueue
  split
  · exact inv_pairUp users s sock coin _ _ _ h
  · exact h

theorem inv_gameFind (users : SocketId → Option UserId) (s : ServerState) (sock : SocketId)
    (coin : Bool) (h : Inv s) : Inv (gameFind users s sock coin) := by
  unfold gameFind
  split
  · exact inv_emit_other s h _ (fun k => rfl)
  · apply inv_gameFindQueue
    apply inv_emit_other
    · exact inv_set_queue s h _
    · exact fun k => rfl

theorem inv_gameJoin (users : SocketId → Option UserId) (s : ServerState) (sock : SocketId)
    (gid : GameId) (h : Inv s) : Inv (gameJoin users s sock gid) := by
  unfold gameJoin
  split
  · exact inv_emit_other s h _ (fun k => rfl)
  · split
    · exact inv_emit_other s h _ (fun k => rfl)
    · split
      · exact inv_emit_other s h _ (fun k => rfl)
      · split
        · exact inv_emit_other s h _ (fun k => rfl)
        · apply inv_setGameTimeout
          apply inv_gupdate_state
          apply inv_emit_other
          · apply inv_emit_other
            · exact inv_gupdate_state s h gid _
            · exact fun k => rfl
          · exact fun k => rfl

theorem inv_timerFire (s : ServerState) (tid : Nat) (h : Inv s) : Inv (timerFire s tid) := by
  unfold timerFire
  split
  · exact h
  · split
    · apply inv_handleTimeout
      exact inv_set_pending s h _
    · exact h

theorem inv_disconnectScan (s : ServerState) (sock : SocketId) (h : Inv s) :
    Inv (disconnectScan s sock) := by
  unfold disconnectScan
  split
  · exact h
  · next gid g heq =>
    apply inv_finalize_state
    · exact inv_clearGameTimeout s sock gid h
    · rw [clearGameTimeout_games]
      intro hnone
      have hs := (findGameOf_mem s.games sock gid g heq).1
      rw [hnone] at hs
      simp at hs

theorem inv_disconnect (s : ServerState) (sock : SocketId) (h : Inv s) :
    Inv (disconnect s sock) := by
  unfold disconnect
  exact inv_disconnectScan _ sock (inv_set_queue s h _)

/-! ## Emit projections -/

@[simp] theorem emit_games (s : ServerState) (e : Emit) : (emit s e).games = s.games := rfl

@[simp] theorem emit_log (s : ServerState) (e : Emit) : (emit s e).log = s.log ++ [e] := rfl

@[simp] theorem emit_queue (s : ServerState) (e : Emit) : (emit s e).queue = s.queue := rfl

@[simp] theorem emit_tmap (s : ServerState) (e : Emit) : (emit s e).tmap = s.tmap := rfl

@[simp] theorem emit_pending (s : ServerState) (e : Emit) : (emit s e).pending = s.pending := rfl

@[simp] theorem emit_now (s : ServerState) (e : Emit) : (emit s e).now = s.now := rfl

@[simp] theorem emit_nextGid (s : ServerState) (e : Emit) : (emit s e).nextGid = s.nextGid := rfl

@[simp] theorem emit_nextTid (s : ServerState) (e : Emit) : (emit s e).nextTid = s.nextTid := rfl

theorem setGameTimeout_games_of_pos (s : ServerState) (c : SocketId) (gid : GameId)
    (dur : Int) (col : Color) (hd : ¬ dur ≤ 0) :
    (setGameTimeout s c gid dur col).games = s.games := by
  rw [setGameTimeout_of_pos s c gid dur col hd]
  exact clearGameTimeout_games s c gid

theorem setGameTimeout_log_of_pos (s : ServerState) (c : SocketId) (gid : GameId)
    (dur : Int) (col : Color) (hd : ¬ dur ≤ 0) :
    (setGameTimeout s c gid dur col).log = s.log := by
  rw [setGameTimeout_of_pos s c gid dur col hd]
  exact clearGameTimeout_log s c gid

theorem setGameTimeout_queue_of_pos (s : ServerState) (c : SocketId) (gid : GameId)
    (dur : Int) (col : Color) (hd : ¬ dur ≤ 0) :
    (setGameTimeout s c gid dur col).queue = s.queue := by
  rw [setGameTimeout_of_pos s c gid dur col hd]
  exact clearGameTimeout_queue s c gid

theorem setGameTimeout_now_of_pos (s : ServerState) (c : SocketId) (gid : GameId)
    (dur : Int) (col : Color) (hd : ¬ dur ≤ 0) :
    (setGameTimeout s c gid dur col).now = s.now := by
  rw [setGameTimeout_of_pos s c gid dur col hd]
  exact clearGameTimeout_now s c gid

/-! ## Invariance of the GAME_MOVE stages -/

theorem inv_moveTimeoutArrival (s : ServerState) (sock : SocketId) (gid : GameId)
    (g1 : Game) (h : Inv s) (hsome : glookup s.games gid ≠ none) :
    Inv (moveTimeoutArrival s sock gid g1) := by
  unfold moveTimeoutArrival
  apply inv_finalize_state
  · exact inv_clearGameTimeout s sock gid h
  · rw [clearGameTimeout_games]
    exact hsome

theorem inv_moveFinishStatus (O : Oracle) (t : ServerState) (h : Inv t) (gid : GameId)
    (g4 : Game) (hsome : glookup t.games gid ≠ none) : Inv (moveFinishStatus O t gid g4) := by
  unfold moveFinishStatus
  split
  · exact inv_finalize_state t h gid _ hsome
  · exact h

theorem inv_moveContinue (O : Oracle) (s : ServerState) (sock : SocketId) (gid : GameId)
    (fr tg : Nat × Nat) (g1 : Game) (h : Inv s)
    (hpos : ¬ (g1.whiteTime ≤ 0 ∨ g1.blackTime ≤ 0))
    (hsome : glookup s.games gid ≠ none) :
    Inv (moveContinue O s sock gid fr tg g1) := by
  unfold moveContinue
  set g2 : Game := { g1 with lastMoveTime := some s.now } with hg2
  set nt : Int := (match g2.turn.other with
    | Color.white => g2.whiteTime
    | Color.black => g2.blackTime) with hnt
  set B : ServerState := { s with games := gupdate s.games gid g2 } with hB
  set S1 : ServerState := setGameTimeout B sock gid nt g2.turn.other with hS1
  set g3 : Game := { g2 with board := movePiece g2.board fr tg, turn := g2.turn.other }
    with hg3
  set g4 : Game := { g3 with
    check := if O.isKingInCheck g3.board g3.turn then some g3.turn else none } with hg4
  have hd : ¬ nt ≤ 0 := by
    rcases not_or.mp hpos with ⟨hw, hb⟩
    have hturn : g2.turn = g1.turn := rfl
    have hwt : g2.whiteTime = g1.whiteTime := rfl
    have hbt : g2.blackTime = g1.blackTime := rfl
    rw [hnt, hturn, hwt, hbt]
    cases hc : g1.turn <;> simp [Color.other, hc] <;> omega
  apply inv_moveFinishStatus
  · apply inv_emit_other
    · apply inv_gupdate_state
      apply inv_setGameTimeout
      exact inv_gupdate_state s h gid g2
    · exact fun k => rfl
  · cases hv : glookup s.games gid with
    | none => exact absurd hv hsome
    | some g0 =>
      have h2 : glookup B.games gid = some g2 := by
        rw [hB]
        exact glookup_gupdate_self s.games gid g2 g0 hv
      have h3 : glookup S1.games gid = some g2 := by
        rw [hS1, setGameTimeout_games_of_pos B sock gid nt g2.turn.other hd]
        exact h2
      have h4 : glookup (gupdate S1.games gid g4) gid = some g4 :=
        glookup_gupdate_self S1.games gid g4 g2 h3
      intro hnone
      have hnone2 : glookup (gupdate S1.games gid g4) gid = none := hnone
      rw [h4] at hnone2
      exact Option.noConfusion hnone2

theorem inv_moveAfterCharge (O : Oracle) (s : ServerState) (sock : SocketId) (gid : GameId)
    (fr tg : Nat × Nat) (g1 : Game) (h : Inv s) (hsome : glookup s.games gid ≠ none) :
    Inv (moveAfterCharge O s sock gid fr tg g1) := by
  unfold moveAfterCharge
  split
  · exact inv_moveTimeoutArrival s sock gid g1 h hsome
  · next hpos => exact inv_moveContinue O s sock gid fr tg g1 h hpos hsome

theorem inv_gameMove (O : Oracle) (s : ServerState) (sock : SocketId) (gid : GameId)
    (fr tg : Nat × Nat) (s' : ServerState)
    (hstep : gameMove O s sock gid fr tg = some s') (h : Inv s) : Inv s' := by
  unfold gameMove at hstep
  split at hstep
  · cases hstep
    exact h
  · next g heq =>
    split at hstep
    · exact Option.noConfusion hstep
    · split at hstep
      · cases hstep
        exact inv_emit_other s h _ (fun k => rfl)
      · split at hstep
        · cases hstep
          apply inv_moveAfterCharge
          · exact inv_gupdate_state s h gid _
          · rw [show ({ s with games := gupdate s.games gid (chargeElapsed g s.now) }
                : ServerState).games = gupdate s.games gid (chargeElapsed g s.now) from rfl]
            intro hnone
            rw [glookup_gupdate_none_iff, heq] at hnone
            exact Option.noConfusion hnone
        · cases hstep
          exact inv_emit_other s h _ (fun k => rfl)

theorem inv_step (users : SocketId → Option UserId) (O : Oracle) (s : ServerState)
    (e : Event) (s' : ServerState) (hstep : step users O s e = some s') (h : Inv s) :
    Inv s' := by
  cases e with
  | create sock tc =>
    simp only [step, Option.some.injEq] at hstep
    subst hstep
    exact inv_gameCreate users s sock tc h
  | findMatch sock coin =>
    simp only [step, Option.some.injEq] at hstep
    subst hstep
    exact inv_gameFind users s sock coin h
  | join sock gid =>
    simp only [step, Option.some.injEq] at hstep
    subst hstep
    exact inv_gameJoin users s sock gid h
  | move sock gid fr tg =>
    simp only [step] at hstep
    exact inv_gameMove O s sock gid fr tg s' hstep h
  | disco sock =>
    simp only [step, Option.some.injEq] at hstep
    subst hstep
    exact inv_disconnect s sock h
  | fire tid =>
    simp only [step, Option.some.injEq] at hstep
    subst hstep
    exact inv_timerFire s tid h
  | tick dt =>
    simp only [step, Option.some.injEq] at hstep
    subst hstep
    exact inv_tickClock s dt h

theorem inv_run (users : SocketId → Option UserId) (O : Oracle) (es : List Event)
    (s : ServerState) (h : Inv s) : Inv (run users O s es) := by
  induction es generalizing s with
  | nil => exact h
  | cons e es ih =>
    simp only [run]
    cases hstep : step users O s e with
    | some s2 => exact ih s2 (inv_step users O s e s2 hstep h)
    | none => exact h

theorem inv_initState : Inv initState := by
  refine ⟨?_, ?_, ?_, ?_⟩
  · intro gid
    simp [initState, gameOverCount]
  · intro gid hk
    simp [initState, gameOverCount] at hk
  · intro gid hk
    simp [initState, gameOverCount] at hk
  · intro gid hk
    simp [initState, glookup] at hk

/-! ## Concrete states and oracles used by the claim theorems -/

/-- An oracle that reports every move reachable and every simulated
position self-checking. -/
def selfCheckOracle : Oracle :=
  { isValidMoveC := fun _ _ _ _ => true,
    isKingInCheck := fun _ _ => true,
    getGameStatus := fun _ _ => none }

/-- Claim C1's scenario: a session is created by socket 1 and joined by
socket 2 (which arms the white deadline timer in *socket 2's* closure);
5 s later white plays a legal move well before its clock expires (which
clears only *socket 1's* closure and arms black's timer there); the
wall clock then passes the first timer's deadline and that timer fires. -/
def c1Events : List Event :=
  [ .create 1 (some 10),
    .join 2 0,
    .tick 5000,
    .move 1 0 (6,4) (4,4),
    .tick 596000,
    .fire 0 ]

/-- The session reached by creating a game (socket 1) and joining it
(socket 2), with a 10-minute time control. -/
def joinState : ServerState :=
  run allUsers permissiveOracle initState [ .create 1 (some 10), .join 2 0 ]

/-- The stored session value of `joinState`. -/
def joinGame : Game :=
  { board := initialBoard, turn := .white,
    players := ⟨⟨1, some 1⟩, some ⟨2, some 2⟩⟩, check := none,
    timeControl := 600000, whiteTime := 600000, blackTime := 600000,
    lastMoveTime := some 1 }

/-- The state reached by creating a session directly (socket 1, black
never filled) and having white play one legal move, so the turn flips to
black while `players.black` is still `null`. -/
def c10State : ServerState :=
  run allUsers permissiveOracle initState [ .create 1 (some 10), .move 1 0 (6,4) (4,4) ]

/-! ## Claim theorems -/

/-- C1 (code bug in the source): after white's in-time legal move, TWO
deadline timers are simultaneously outstanding for session 0 — the timer
armed at join lives in socket 2's per-connection `gameTimeouts` map, so
the move (handled in socket 1's closure) cannot clear it — and that
superseded timer later fires and emits the Timeout GAME_OVER even though
white moved with 595 000 ms remaining.  The claim (spec §3 Pending Timer,
§4.2) requires at most one outstanding timer per session and that a
superseded timer never invoke the handler. -/
theorem c1_superseded_timer_fires :
    ((run allUsers permissiveOracle initState (c1Events.take 4)).pending.filter
        (fun r => r.gid == 0)).length = 2 ∧
    (glookup (run allUsers permissiveOracle initState (c1Events.take 4)).games 0).map
        (fun g => (g.turn, g.whiteTime, g.blackTime))
      = some (Color.black, 595000, 600000) ∧
    Emit.toRoom 0 (.gameOver ⟨some Color.black, .timeout⟩) ∈
      (run allUsers permissiveOracle initState c1Events).log := by
  decide

/-- C2: over every event sequence from the initial server state, at most
one terminal GAME_OVER broadcast is ever emitted per session identifier;
and a finalization attempt for an already-evicted session — whether the
timeout handler or a move reaching the evicted id — is a silent no-op
(state returned unchanged, nothing emitted, no fault). -/
theorem c2_single_game_over :
    (∀ (users : SocketId → Option UserId) (O : Oracle) (es : List Event) (gid : GameId),
        gameOverCount (run users O initState es).log gid ≤ 1) ∧
    (∀ (s : ServerState) (c : SocketId) (gid : GameId) (col : Color),
        glookup s.games gid = none → handleTimeout s c gid col = s) ∧
    (∀ (O : Oracle) (s : ServerState) (sock : SocketId) (gid : GameId) (fr tg : Nat × Nat),
        glookup s.games gid = none → gameMove O s sock gid fr tg = some s) := by
  refine ⟨?_, ?_, ?_⟩
  · intro users O es gid
    exact (inv_run users O es initState inv_initState).1 gid
  · intro s c gid col hnone
    unfold handleTimeout
    rw [hnone]
  · intro O s sock gid fr tg hnone
    unfold gameMove
    rw [hnone]

theorem c2_witness :
    gameOverCount (run allUsers permissiveOracle initState c1Events).log 0 ≤ 1 ∧
    handleTimeout initState 3 7 Color.white = initState ∧
    gameMove permissiveOracle initState 3 7 (0, 0) (1, 1) = some initState :=
  ⟨c2_single_game_over.1 allUsers permissiveOracle c1Events 0,
   c2_single_game_over.2.1 initState 3 7 Color.white rfl,
   c2_single_game_over.2.2 permissiveOracle initState 3 7 (0, 0) (1, 1) rfl⟩

/-- C10: the `playerSocketId` lookup of GAME_MOVE is not total.  In the
reachable state `c10State` (direct creation fills only white; white's one
legal move flips the turn to black) the side-to-move's participant is
absent, and any further GAME_MOVE dereferences `players.black.id` of
`null` — the handler faults (`none`) instead of reaching a guarded
error branch. -/
theorem c10_absent_black_deref :
    (glookup c10State.games 0).map (fun g => g.turn) = some Color.black ∧
    (glookup c10State.games 0).map (fun g => g.players.black) = some none ∧
    step allUsers permissiveOracle c10State (.move 2 0 (1,4) (3,4)) = none := by
  decide

/-- C5, counterexample: in the reachable state `c10State` (side-to-move
black, black participant absent), socket 3 — which is not the
side-to-move's participant — submits a move, and instead of receiving a
TurnViolation error it crashes the handler: the result is `none`, not the
error-emitting state the claim requires. -/
theorem c5_counterexample :
    (glookup c10State.games 0).map (fun g => g.players.black) = some none ∧
    gameMove permissiveOracle c10State 3 0 (1,4) (3,4) = none ∧
    gameMove permissiveOracle c10State 3 0 (1,4) (3,4) ≠
      some (emit c10State (.toSock 3 (.gameError .notYourTurn))) := by
  decide

/-- C5 as amended: when the side-to-move's participant is *present* and
the submitter is a different connection, GAME_MOVE emits the
TurnViolation error to the submitter only and changes nothing else —
the resulting state differs from the old one exactly by the appended
error emission. -/
theorem c5_turn_violation (O : Oracle) (s : ServerState) (sock : SocketId) (gid : GameId)
    (fr tg : Nat × Nat) (g : Game) (pid : SocketId)
    (hg : glookup s.games gid = some g) (hpid : turnSid g = some pid) (hne : sock ≠ pid) :
    gameMove O s sock gid fr tg =
      some { s with log := s.log ++ [.toSock sock (.gameError .notYourTurn)] } := by
  unfold gameMove
  simp [hg, hpid, hne, emit]

theorem c5_witness :
    gameMove permissiveOracle joinState 2 0 (1,4) (3,4) =
      some { joinState with log := joinState.log ++ [.toSock 2 (.gameError .notYourTurn)] } :=
  c5_turn_violation permissiveOracle joinState 2 0 (1,4) (3,4) joinGame 1
    (by decide) (by decide) (by decide)

/-- C6: a move the Rules Oracle reports reachable but whose simulated
application leaves the mover's own king attacked is rejected:
`isValidMoveWasm` is false, GAME_MOVE emits InvalidMove to the mover
only, and the resulting state differs from the old one exactly by that
emission — no board, turn, clock, store, queue or timer mutation. -/
theorem c6_self_check_rejected (O : Oracle) (s : ServerState) (sock : SocketId)
    (gid : GameId) (fr tg : Nat × Nat) (g : Game)
    (hg : glookup s.games gid = some g) (hpid : turnSid g = some sock)
    (hreach : O.isValidMoveC g.board fr tg g.turn = true)
    (hcheck : O.isKingInCheck (movePiece g.board fr tg) g.turn = true) :
    isValidMoveWasm O g.board fr tg g.turn = false ∧
    gameMove O s sock gid fr tg =
      some { s with log := s.log ++ [.toSock sock (.gameError .invalidMove)] } := by
  have hvalid : isValidMoveWasm O g.board fr tg g.turn = false := by
    simp [isValidMoveWasm, hreach, hcheck]
  refine ⟨hvalid, ?_⟩
  unfold gameMove
  simp [hg, hpid, hvalid, emit]

theorem c6_witness :
    isValidMoveWasm selfCheckOracle joinGame.board (6,4) (4,4) joinGame.turn = false ∧
    gameMove selfCheckOracle joinState 1 0 (6,4) (4,4) =
      some { joinState with log := joinState.log ++ [.toSock 1 (.gameError .invalidMove)] } :=
  c6_self_check_rejected selfCheckOracle joinState 1 0 (6,4) (4,4) joinGame
    (by decide) (by decide) rfl rfl

/-! ## C4: timeout discovered on arrival -/

theorem moveTimeoutArrival_log (s : ServerState) (sock : SocketId) (gid : GameId)
    (g1 : Game) :
    (moveTimeoutArrival s sock gid g1).log = s.log ++ [.toRoom gid (.gameOver
      ⟨some (if g1.whiteTime ≤ 0 then Color.black else Color.white), .timeout⟩)] := by
  unfold moveTimeoutArrival
  simp

theorem moveTimeoutArrival_games (s : ServerState) (sock : SocketId) (gid : GameId)
    (g1 : Game) :
    (moveTimeoutArrival s sock gid g1).games = gerase s.games gid := by
  unfold moveTimeoutArrival
  simp

theorem moveTimeoutArrival_queue (s : ServerState) (sock : SocketId) (gid : GameId)
    (g1 : Game) : (moveTimeoutArrival s sock gid g1).queue = s.queue := by
  unfold moveTimeoutArrival
  simp

theorem moveTimeoutArrival_tmap (s : ServerState) (sock : SocketId) (gid : GameId)
    (g1 : Game) :
    tlookup (moveTimeoutArrival s sock gid g1).tmap (sock, gid) = none :=
  tlookup_clearGameTimeout s sock gid

theorem moveTimeoutArrival_pending (s : ServerState) (sock : SocketId) (gid : GameId)
    (g1 : Game) :
    (moveTimeoutArrival s sock gid g1).pending = (clearGameTimeout s sock gid).pending := by
  unfold moveTimeoutArrival
  simp

/-- `clearGameTimeout` reads only the timer table and the pending
timers. -/
theorem clearGameTimeout_pending_congr (s t : ServerState) (c : SocketId) (gid : GameId)
    (htm : t.tmap = s.tmap) (hp : t.pending = s.pending) :
    (clearGameTimeout t c gid).pending = (clearGameTimeout s c gid).pending := by
  unfold clearGameTimeout
  rw [htm]
  cases tlookup s.tmap (c, gid) <;> simp [hp]

/-- The elapsed-time charge (lines 299–307): with a truthy timestamp the
side-to-move's budget is reduced by `now - lastMoveTime`, the other
budget untouched. -/
theorem chargeElapsed_spec (g : Game) (now t : Int) (ht : g.lastMoveTime = some t)
    (ht0 : t ≠ 0) :
    (g.turn = Color.white →
      chargeElapsed g now = { g with whiteTime := g.whiteTime - (now - t) }) ∧
    (g.turn = Color.black →
      chargeElapsed g now = { g with blackTime := g.blackTime - (now - t) }) := by
  unfold chargeElapsed
  rw [ht]
  constructor <;> intro hturn <;> simp [ht0, hturn]

/-- C4 as amended: a legal move by the side-to-move in a session with a
(truthy) last event timestamp, arriving after the charged budget of
either side has reached zero or below: the elapsed wall-clock time is
charged to the side-to-move's budget only; the pending timers afterwards
are exactly what the MOVER'S OWN connection's `clearGameTimeout` leaves
(only that closure's slot is cleared — a timer armed by a different
connection's closure survives, but its later firing is a silent no-op
because the session is already evicted, as the `handleTimeout` conjunct
states); the only emission is the Timeout GAME_OVER whose loser is a
side at or below zero (white checked first); the session is evicted; and
the move is never applied — the store change is exactly the eviction and
no GAME_STATE is broadcast. -/
theorem c4_timeout_on_arrival (O : Oracle) (s : ServerState) (sock : SocketId)
    (gid : GameId) (fr tg : Nat × Nat) (g : Game) (t : Int)
    (hg : glookup s.games gid = some g) (hpid : turnSid g = some sock)
    (hvalid : isValidMoveWasm O g.board fr tg g.turn = true)
    (ht : g.lastMoveTime = some t) (ht0 : t ≠ 0)
    (hto : (chargeElapsed g s.now).whiteTime ≤ 0 ∨ (chargeElapsed g s.now).blackTime ≤ 0) :
    ∃ s', gameMove O s sock gid fr tg = some s' ∧
      s'.log = s.log ++ [.toRoom gid (.gameOver
        ⟨some (if (chargeElapsed g s.now).whiteTime ≤ 0 then Color.black else Color.white),
         .timeout⟩)] ∧
      s'.games = gerase s.games gid ∧
      tlookup s'.tmap (sock, gid) = none ∧
      s'.pending = (clearGameTimeout s sock gid).pending ∧
      (∀ c col, handleTimeout s' c gid col = s') ∧
      s'.queue = s.queue ∧
      ((if (chargeElapsed g s.now).whiteTime ≤ 0 then Color.black else Color.white)
          = Color.black → (chargeElapsed g s.now).whiteTime ≤ 0) ∧
      ((if (chargeElapsed g s.now).whiteTime ≤ 0 then Color.black else Color.white)
          = Color.white → (chargeElapsed g s.now).blackTime ≤ 0) ∧
      (g.turn = Color.white →
        (chargeElapsed g s.now).whiteTime = g.whiteTime - (s.now - t) ∧
        (chargeElapsed g s.now).blackTime = g.blackTime) ∧
      (g.turn = Color.black →
        (chargeElapsed g s.now).blackTime = g.blackTime - (s.now - t) ∧
        (chargeElapsed g s.now).whiteTime = g.whiteTime) := by
  refine ⟨moveTimeoutArrival
      { s with games := gupdate s.games gid (chargeElapsed g s.now) } sock gid
      (chargeElapsed g s.now), ?_, ?_, ?_, ?_, ?_, ?_, ?_, ?_, ?_, ?_, ?_⟩
  · unfold gameMove
    simp [hg, hpid, hvalid, moveAfterCharge, hto]
  · exact moveTimeoutArrival_log _ sock gid _
  · rw [moveTimeoutArrival_games]
    exact gerase_gupdate s.games gid _
  · exact moveTimeoutArrival_tmap _ sock gid _
  · rw [moveTimeoutArrival_pending]
    exact clearGameTimeout_pending_congr s _ sock gid rfl rfl
  · intro c col
    have hnone : glookup (moveTimeoutArrival
        { s with games := gupdate s.games gid (chargeElapsed g s.now) } sock gid
        (chargeElapsed g s.now)).games gid = none := by
      rw [moveTimeoutArrival_games]
      exact glookup_gerase_self _ gid
    unfold handleTimeout
    rw [hnone]
  · exact moveTimeoutArrival_queue _ sock gid _
  · intro hEq
    by_cases hc : (chargeElapsed g s.now).whiteTime ≤ 0
    · exact hc
    · rw [if_neg hc] at hEq
      exact Color.noConfusion hEq
  · intro hEq
    by_cases hc : (chargeElapsed g s.now).whiteTime ≤ 0
    · rw [if_pos hc] at hEq
      exact Color.noConfusion hEq
    · rcases hto with h1 | h2
      · exact absurd h1 hc
      · exact h2
  · intro hturn
    rw [(chargeElapsed_spec g s.now t ht ht0).1 hturn]
    exact ⟨rfl, rfl⟩
  · intro hturn
    rw [(chargeElapsed_spec g s.now t ht ht0).2 hturn]
    exact ⟨rfl, rfl⟩

/-- A 1-minute game, joined, with 70 s elapsed before white's move: the
charge drives white to −10 000 ms. -/
def c4Pre : ServerState :=
  run allUsers permissiveOracle initState
    [ .create 1 (some 1), .join 2 0, .tick 70000 ]

def c4Game : Game :=
  { board := initialBoard, turn := .white,
    players := ⟨⟨1, some 1⟩, some ⟨2, some 2⟩⟩, check := none,
    timeControl := 60000, whiteTime := 60000, blackTime := 60000,
    lastMoveTime := some 1 }

/-- C4, counterexample to the claim as written: at `c4Pre` the deadline
timer was armed by the JOINER (socket 2's closure, handle 0); white
(socket 1) then submits the legal move that discovers the timeout.  The
session is finalized — evicted, with the Timeout GAME_OVER broadcast —
yet the pending timer is NOT cancelled: `clearGameTimeout` ran in the
mover's closure, which holds no slot for the session, so the join-armed
timer survives finalization in `pending`.  "The pending timer is
cancelled" is therefore false of the code; only the mover's own
closure's slot is cleared. -/
theorem c4_counterexample :
    (gameMove permissiveOracle c4Pre 1 0 (6,4) (4,4)).map
        (fun s2 => (s2.pending, glookup s2.games 0,
          decide (Emit.toRoom 0 (.gameOver ⟨some Color.black, .timeout⟩) ∈ s2.log)))
      = some ([⟨0, 2, 0, Color.white, 61001⟩], none, true) := by
  decide

theorem c4_witness :
    ∃ s', gameMove permissiveOracle c4Pre 1 0 (6,4) (4,4) = some s' ∧
      s'.games = gerase c4Pre.games 0 ∧ tlookup s'.tmap (1, 0) = none := by
  obtain ⟨s', h1, h2, h3, h4, h5, _⟩ :=
    c4_timeout_on_arrival permissiveOracle c4Pre 1 0 (6,4) (4,4) c4Game 1
      (by decide) (by decide) (by decide) (by decide) (by decide) (by decide)
  exact ⟨s', h1, h3, h4⟩

/-! ## C3: what timer does a successful join start? -/

/-- Claim C3's counterexample scenario: socket 1 creates a session and
plays a legal move before anyone joins (the turn flips to black), then
socket 2 joins. -/
def c3Events : List Event :=
  [ .create 1 (some 10), .move 1 0 (6,4) (4,4), .join 2 0 ]

/-- C3, counterexample: after `c3Events` the side-to-move of session 0 is
black, yet the timer armed by the join (handle 1, in the joiner socket
2's closure) is for WHITE — firing it would call
`handleTimeout(gid, 'white')` — with white's remaining time, not the
side-to-move's.  The claim, which requires the join to start the timer
for the current side-to-move with that side's budget, is false on this
session. -/
theorem c3_counterexample :
    (glookup (run allUsers permissiveOracle initState c3Events).games 0).map
        (fun g => g.turn) = some Color.black ∧
    (run allUsers permissiveOracle initState c3Events).pending.find?
        (fun r => r.tid == 1) = some ⟨1, 2, 0, Color.white, 601001⟩ := by
  decide

/-- The session value after a successful join: black filled with the
joiner, `lastMoveTime` stamped. -/
def joinedGame (g : Game) (sock : SocketId) (u : UserId) (now : Int) : Game :=
  { g with
    players := { g.players with black := some ⟨sock, some u⟩ }
    lastMoveTime := some now }

/-- C3 as amended: a successful join of an existing non-full session by a
new authenticated connection fills the black side, emits SessionJoined to
the joiner and the full GAME_STATE broadcast to the room, and starts the
deadline timer for WHITE using white's current remaining time —
regardless of which side is to move (the source hardcodes
`setGameTimeout(gameId, game.whiteTime, 'white')`; in the normal flow,
where no move precedes the join, white is the side-to-move). -/
theorem c3_join_arms_white_timer (users : SocketId → Option UserId) (s : ServerState)
    (sock : SocketId) (gid : GameId) (g : Game) (u : UserId)
    (hu : users sock = some u) (hg : glookup s.games gid = some g)
    (hb : g.players.black = none) (hw : g.players.white.sid ≠ sock)
    (hpos : ¬ g.whiteTime ≤ 0) :
    glookup (gameJoin users s sock gid).games gid = some (joinedGame g sock u s.now) ∧
    (gameJoin users s sock gid).log = s.log ++
      [.toSock sock (.gameJoined gid .black g.board g.whiteTime g.blackTime),
       .toRoom gid (.gameState g.board g.turn g.check g.whiteTime g.blackTime
         g.lastMoveTime)] ∧
    ∃ p, (gameJoin users s sock gid).pending =
      p ++ [⟨s.nextTid, sock, gid, Color.white, s.now + g.whiteTime + 1000⟩] := by
  refine ⟨?_, ?_, ?_⟩
  · unfold gameJoin
    simp only [hu, hg, hb, Option.isSome_none, Bool.false_eq_true, if_false, if_neg hw]
    rw [setGameTimeout_games_of_pos _ _ _ _ _ hpos]
    exact glookup_gupdate_self _ gid _ _ (glookup_gupdate_self s.games gid _ g hg)
  · unfold gameJoin
    simp only [hu, hg, hb, Option.isSome_none, Bool.false_eq_true, if_false, if_neg hw]
    rw [setGameTimeout_log_of_pos _ _ _ _ _ hpos]
    simp
  · unfold gameJoin
    simp only [hu, hg, hb, Option.isSome_none, Bool.false_eq_true, if_false, if_neg hw]
    rw [setGameTimeout_of_pos _ _ _ _ _ hpos]
    exact ⟨_, rfl⟩

/-- The session created by socket 1 with a 10-minute control, before
anyone joins. -/
def createGame : Game :=
  { board := initialBoard, turn := .white,
    players := ⟨⟨1, some 1⟩, none⟩, check := none,
    timeControl := 600000, whiteTime := 600000, blackTime := 600000,
    lastMoveTime := none }

def createState : ServerState :=
  run allUsers permissiveOracle initState [ .create 1 (some 10) ]

theorem c3_witness :
    glookup (gameJoin allUsers createState 2 0).games 0 =
      some (joinedGame createGame 2 2 createState.now) ∧
    ∃ p, (gameJoin allUsers createState 2 0).pending =
      p ++ [⟨createState.nextTid, 2, 0, Color.white,
             createState.now + createGame.whiteTime + 1000⟩] := by
  obtain ⟨h1, h2, h3⟩ :=
    c3_join_arms_white_timer allUsers createState 2 0 createGame 2
      rfl (by decide) (by decide) (by decide) (by decide)
  exact ⟨h1, h3⟩

/-! ## C7/C9: matchmaking -/

/-- The session a queue pairing creates, as finally stored (after the
`lastMoveTime` stamp). -/
def pairedGame (users : SocketId → Option UserId) (coin : Bool) (p1 p2 : SocketId)
    (now : Int) : Game :=
  { board := initialBoard, turn := .white,
    players := pairedPlayers users coin p1 p2, check := none,
    timeControl := 10 * 60 * 1000, whiteTime := 10 * 60 * 1000,
    blackTime := 10 * 60 * 1000, lastMoveTime := some now }

theorem pairUp_spec (users : SocketId → Option UserId) (s : ServerState) (sock : SocketId)
    (coin : Bool) (p1 p2 : SocketId) (rest : List SocketId)
    (hfresh : glookup s.games s.nextGid = none) :
    (pairUp users s sock coin p1 p2 rest).queue = rest ∧
    (pairUp users s sock coin p1 p2 rest).games =
      s.games ++ [(s.nextGid, pairedGame users coin p1 p2 s.now)] ∧
    (pairUp users s sock coin p1 p2 rest).log = s.log ++
      [.toSock p1 (.gameJoined s.nextGid (pairColor (pairedPlayers users coin p1 p2) p1)
         initialBoard (10 * 60 * 1000) (10 * 60 * 1000)),
       .toSock p2 (.gameJoined s.nextGid (pairColor (pairedPlayers users coin p1 p2) p2)
         initialBoard (10 * 60 * 1000) (10 * 60 * 1000)),
       .toRoom s.nextGid (.gameState initialBoard Color.white none (10 * 60 * 1000)
         (10 * 60 * 1000) none)] := by
  have hpos : ¬ ((10 * 60 * 1000 : Int) ≤ 0) := by norm_num
  refine ⟨?_, ?_, ?_⟩
  · unfold pairUp
    rw [setGameTimeout_queue_of_pos _ _ _ _ _ hpos]
    simp
  · unfold pairUp
    rw [setGameTimeout_games_of_pos _ _ _ _ _ hpos]
    exact gupdate_append_fresh s.games s.nextGid _ _ hfresh
  · unfold pairUp
    rw [setGameTimeout_log_of_pos _ _ _ _ _ hpos]
    simp

/-- With two distinct paired sockets, the reported sides are determined
by the coin and complementary. -/
theorem pairColor_spec (users : SocketId → Option UserId) (coin : Bool)
    (p1 p2 : SocketId) (hne : p1 ≠ p2) :
    pairColor (pairedPlayers users coin p1 p2) p1 =
      (if coin then Color.white else Color.black) ∧
    pairColor (pairedPlayers users coin p1 p2) p2 =
      (if coin then Color.black else Color.white) := by
  cases coin <;> constructor <;> simp [pairColor, pairedPlayers, hne, Ne.symm hne]

/-- Reduction of GAME_FIND on an empty queue: enqueue and emit only. -/
theorem gameFind_enqueue_red (users : SocketId → Option UserId) (t : ServerState)
    (sock : SocketId) (coin : Bool) (u : UserId) (hu : users sock = some u)
    (hqt : t.queue = []) :
    gameFind users t sock coin =
      emit { t with queue := t.queue ++ [sock] } (.toSock sock .gameFinding) := by
  unfold gameFind gameFindQueue
  simp [hu, hqt]

/-- Reduction of GAME_FIND on a one-entry queue: enqueue, emit, and pair
the two oldest entries. -/
theorem gameFind_pair_red (users : SocketId → Option UserId) (t : ServerState)
    (sock : SocketId) (coin : Bool) (p1 : SocketId) (u : UserId)
    (hu : users sock = some u) (hqt : t.queue = [p1]) :
    gameFind users t sock coin =
      pairUp users (emit { t with queue := t.queue ++ [sock] }
        (.toSock sock .gameFinding)) sock coin p1 sock [] := by
  unfold gameFind gameFindQueue
  simp [hu, hqt]

/-- C7: the matchmaking queue is strict FIFO with pairing at length two.
Enqueueing into an empty queue only appends and creates nothing; an
enqueue that brings the queue to two entries immediately dequeues the two
oldest into one fresh session whose board is the standard starting
position, and both connections receive MatchJoined (GAME_JOINED) for the
same session identifier with complementary sides decided by the coin
flip. -/
theorem c7_fifo_pairing (users : SocketId → Option UserId) (s : ServerState)
    (sock : SocketId) (coin : Bool) (u : UserId) (hu : users sock = some u) :
    (s.queue = [] →
      (gameFind users s sock coin).queue = [sock] ∧
      (gameFind users s sock coin).games = s.games ∧
      (gameFind users s sock coin).log = s.log ++ [.toSock sock .gameFinding]) ∧
    (∀ p1, s.queue = [p1] → p1 ≠ sock → glookup s.games s.nextGid = none →
      (gameFind users s sock coin).queue = [] ∧
      (gameFind users s sock coin).games =
        s.games ++ [(s.nextGid, pairedGame users coin p1 sock s.now)] ∧
      (gameFind users s sock coin).log = s.log ++
        [.toSock sock .gameFinding,
         .toSock p1 (.gameJoined s.nextGid (if coin then Color.white else Color.black)
           initialBoard (10 * 60 * 1000) (10 * 60 * 1000)),
         .toSock sock (.gameJoined s.nextGid (if coin then Color.black else Color.white)
           initialBoard (10 * 60 * 1000) (10 * 60 * 1000)),
         .toRoom s.nextGid (.gameState initialBoard Color.white none (10 * 60 * 1000)
           (10 * 60 * 1000) none)] ∧
      (pairedGame users coin p1 sock s.now).board = initialBoard ∧
      (if coin then Color.white else Color.black) =
        ((if coin then Color.black else Color.white) : Color).other) := by
  constructor
  · intro hq
    rw [gameFind_enqueue_red users s sock coin u hu hq]
    refine ⟨?_, rfl, rfl⟩
    rw [emit_queue]
    show s.queue ++ [sock] = [sock]
    rw [hq]
    rfl
  · intro p1 hq hne hfresh
    have hred := gameFind_pair_red users s sock coin p1 u hu hq
    obtain ⟨hQ, hG, hL⟩ := pairUp_spec users
      (emit { s with queue := s.queue ++ [sock] } (.toSock sock .gameFinding))
      sock coin p1 sock [] hfresh
    obtain ⟨hc1, hc2⟩ := pairColor_spec users coin p1 sock hne
    refine ⟨?_, ?_, ?_, rfl, ?_⟩
    · rw [hred]
      exact hQ
    · rw [hred, hG]
      rfl
    · rw [hred, hL, hc1, hc2]
      simp
    · cases coin <;> rfl

theorem c7_witness :
    (gameFind allUsers initState 1 true).queue = [1] ∧
    (gameFind allUsers initState 1 true).games = initState.games ∧
    (gameFind allUsers (gameFind allUsers initState 1 true) 2 true).queue = [] ∧
    (gameFind allUsers (gameFind allUsers initState 1 true) 2 true).games =
      (gameFind allUsers initState 1 true).games ++
        [((gameFind allUsers initState 1 true).nextGid,
          pairedGame allUsers true 1 2 (gameFind allUsers initState 1 true).now)] := by
  obtain ⟨he, _⟩ := c7_fifo_pairing allUsers initState 1 true 1 rfl
  obtain ⟨h1, h2, h3⟩ := he rfl
  obtain ⟨_, hp⟩ := c7_fifo_pairing allUsers (gameFind allUsers initState 1 true) 2 true 2 rfl
  obtain ⟨hq2, hg2, _⟩ := hp 1 (by decide) (by decide) (by decide)
  exact ⟨h1, h2, hq2, hg2⟩

/-- C9: enqueueing does not deduplicate.  A connection that sends
FindMatch twice while the queue is otherwise empty is paired with itself:
the first find only enqueues it, the second triggers the length-two
pairing, and the created session's white and black participants both
hold that connection's identifier. -/
theorem c9_no_dedup (users : SocketId → Option UserId) (s : ServerState) (sock : SocketId)
    (u : UserId) (coin1 coin2 : Bool) (hu : users sock = some u) (hq : s.queue = [])
    (hfresh : glookup s.games s.nextGid = none) :
    (gameFind users s sock coin1).queue = [sock] ∧
    (gameFind users s sock coin1).games = s.games ∧
    (gameFind users (gameFind users s sock coin1) sock coin2).queue = [] ∧
    ∃ g, glookup (gameFind users (gameFind users s sock coin1) sock coin2).games s.nextGid
        = some g ∧
      g.players.white.sid = sock ∧
      g.players.black.map (fun b => b.sid) = some sock := by
  have hred1 := gameFind_enqueue_red users s sock coin1 u hu hq
  have hq1 : (gameFind users s sock coin1).queue = [sock] := by
    rw [hred1, emit_queue]
    show s.queue ++ [sock] = [sock]
    rw [hq]
    rfl
  have hg1 : (gameFind users s sock coin1).games = s.games := by
    rw [hred1]
    rfl
  have hn1 : (gameFind users s sock coin1).nextGid = s.nextGid := by
    rw [hred1]
    rfl
  have hred2 := gameFind_pair_red users (gameFind users s sock coin1) sock coin2 sock u
    hu hq1
  have hfresh2 : glookup (emit { gameFind users s sock coin1 with
      queue := (gameFind users s sock coin1).queue ++ [sock] }
      (.toSock sock .gameFinding)).games
      (emit { gameFind users s sock coin1 with
        queue := (gameFind users s sock coin1).queue ++ [sock] }
        (.toSock sock .gameFinding)).nextGid = none := by
    show glookup (gameFind users s sock coin1).games (gameFind users s sock coin1).nextGid
      = none
    rw [hg1, hn1]
    exact hfresh
  obtain ⟨hQ, hG, hL⟩ := pairUp_spec users
    (emit { gameFind users s sock coin1 with
      queue := (gameFind users s sock coin1).queue ++ [sock] }
      (.toSock sock .gameFinding)) sock coin2 sock sock [] hfresh2
  refine ⟨hq1, hg1, ?_, ?_⟩
  · rw [hred2]
    exact hQ
  · refine ⟨pairedGame users coin2 sock sock
      (emit { gameFind users s sock coin1 with
        queue := (gameFind users s sock coin1).queue ++ [sock] }
        (.toSock sock .gameFinding)).now, ?_, ?_, ?_⟩
    · rw [hred2, hG]
      have hbase : (emit { gameFind users s sock coin1 with
          queue := (gameFind users s sock coin1).queue ++ [sock] }
          (.toSock sock .gameFinding)).games = s.games := hg1
      have hnid : (emit { gameFind users s sock coin1 with
          queue := (gameFind users s sock coin1).queue ++ [sock] }
          (.toSock sock .gameFinding)).nextGid = s.nextGid := hn1
      rw [hbase, hnid]
      exact glookup_append_self s.games s.nextGid _ hfresh
    · cases coin2 <;> rfl
    · cases coin2 <;> rfl

theorem c9_witness :
    (gameFind allUsers initState 7 true).queue = [7] ∧
    ∃ g, glookup (gameFind allUsers (gameFind allUsers initState 7 true) 7 false).games 0
        = some g ∧
      g.players.white.sid = 7 ∧
      g.players.black.map (fun b => b.sid) = some 7 := by
  obtain ⟨h1, h2, h3, h4⟩ := c9_no_dedup allUsers initState 7 7 true false rfl rfl rfl
  exact ⟨h1, h4⟩

/-! ## C8: disconnect handling -/

/-- A participant's presence witness: if the scan matched, either white's
id is the socket, or black is present with that id. -/
theorem isParticipant_cases (g : Game) (sock : SocketId)
    (hp : isParticipant g sock = true) (hw : g.players.white.sid ≠ sock) :
    ∃ b, g.players.black = some b ∧ b.sid = sock := by
  unfold isParticipant at hp
  cases hb : g.players.black with
  | none =>
    rw [hb] at hp
    simp [hw] at hp
  | some b =>
    rw [hb] at hp
    simp [hw] at hp
    exact ⟨b, rfl, hp⟩

/-- C8: on disconnect, the socket is removed from the matchmaking queue;
if it participates in a stored session (first match in store order), that
session is finalized exactly once with reason OpponentDisconnected and
the other side named winner, and evicted; if it does not participate in
any session, nothing else happens — in particular a connection that was
only waiting in the queue is just removed, with no session created. -/
theorem c8_disconnect (s : ServerState) (sock : SocketId) :
    (∀ gid g, findGameOf s.games sock = some (gid, g) →
        (disconnect s sock).log = s.log ++ [.toRoom gid (.gameOver
          ⟨some (if g.players.white.sid = sock then Color.black else Color.white),
           .opponentDisconnected⟩)] ∧
        (disconnect s sock).games = gerase s.games gid ∧
        (disconnect s sock).queue = removeFirst s.queue sock ∧
        (g.players.white.sid = sock →
          (if g.players.white.sid = sock then Color.black else Color.white)
            = Color.black) ∧
        (g.players.white.sid ≠ sock →
          (if g.players.white.sid = sock then Color.black else Color.white)
            = Color.white ∧
          ∃ b, g.players.black = some b ∧ b.sid = sock)) ∧
    (findGameOf s.games sock = none →
        disconnect s sock = { s with queue := removeFirst s.queue sock }) := by
  constructor
  · intro gid g hf
    have hf' : findGameOf ({ s with queue := removeFirst s.queue sock } :
        ServerState).games sock = some (gid, g) := hf
    refine ⟨?_, ?_, ?_, ?_, ?_⟩
    · unfold disconnect disconnectScan
      rw [hf']
      simp
    · unfold disconnect disconnectScan
      rw [hf']
      simp
    · unfold disconnect disconnectScan
      rw [hf']
      simp
    · intro hws
      rw [if_pos hws]
    · intro hws
      refine ⟨if_neg hws, ?_⟩
      exact isParticipant_cases g sock (findGameOf_mem s.games sock gid g hf).2 hws
  · intro hf
    have hf' : findGameOf ({ s with queue := removeFirst s.queue sock } :
        ServerState).games sock = none := hf
    unfold disconnect disconnectScan
    rw [hf']

/-- A server with socket 5 waiting alone in the queue. -/
def queuedState : ServerState := gameFind allUsers initState 5 true

theorem c8_witness :
    (disconnect joinState 1).games = gerase joinState.games 0 ∧
    (disconnect joinState 1).log = joinState.log ++ [.toRoom 0 (.gameOver
      ⟨some (if joinGame.players.white.sid = 1 then Color.black else Color.white),
       .opponentDisconnected⟩)] ∧
    disconnect queuedState 5 = { queuedState with queue := removeFirst queuedState.queue 5 } := by
  obtain ⟨hl, hg, _⟩ := (c8_disconnect joinState 1).1 0 joinGame (by decide)
  exact ⟨hg, hl, (c8_disconnect queuedState 5).2 (by decide)⟩

end Chess
